import Mathlib

/-!
# Verification of the serviced coordination layer (zzk package)

Shallow embedding of the ZooKeeper-backed coordination code of the
serviced repository: the versioned entity store (load-mutate-update
helpers, AddService/AddServiceState/UpdateService/RemoveService), the
snapshot-request polling protocol, and the Listen/Start/Ready listener
framework.

The coordination store is modelled as an association list from paths to
versioned nodes.  Operations that in the source run against a live
connection are modelled either with explicit read/write store snapshots
(the snapshot seen by the read may differ from the snapshot seen by the
write, which is exactly the interleaving that optimistic concurrency
guards against), or, for the looping routines, with a time-indexed
environment `Nat → Store` giving the store contents at each successive
store operation.
-/

namespace Serviced

/-! ## Entity data model (src/unnamed/part_000, package dao) -/

/-- Desired states of services (`dao.SVC_RUN`). -/
def SVC_RUN : Int := 1

/-- Desired states of services (`dao.SVC_STOP`). -/
def SVC_STOP : Int := 0

/-- Desired states of services (`dao.SVN_RESTART`). -/
def SVN_RESTART : Int := -1

/-- `dao.ServiceEndpoint`: an endpoint that a Service exposes. -/
structure ServiceEndpoint where
  Protocol : String
  PortNumber : Nat
  Application : String
  Purpose : String
deriving Repr, DecidableEq

/-- `dao.Service`: a Service that can run in serviced.  `time.Time`
fields are modelled as integer timestamps. -/
structure Service where
  Id : String
  Name : String
  Context : String
  Startup : String
  Description : String
  Instances : Int
  ImageId : String
  PoolId : String
  DesiredState : Int
  Launch : String
  Endpoints : Option (List ServiceEndpoint)
  ParentServiceId : String
  CreatedAt : Int
  UpdatedAt : Int
deriving Repr, DecidableEq

/-- `dao.ServiceState`: an instantiation of a Service.  `time.Time`
fields are modelled as integer timestamps; the port-mapping map is
modelled as an association list. -/
structure SState where
  Id : String
  ServiceId : String
  HostId : String
  DockerId : String
  PrivateIp : String
  Scheduled : Int
  Terminated : Int
  Started : Int
  PortMapping : List (String × List (String × String))
  Endpoints : List ServiceEndpoint
  HostIp : String
deriving Repr, DecidableEq

/-- `zzk.HostServiceState` (src/unnamed/part_003): a shadow of a
ServiceState indexed by host. -/
structure HostServiceState where
  HostId : String
  ServiceId : String
  ServiceStateId : String
  DesiredState : Int
deriving Repr, DecidableEq

/-- Modelled from the spec: `dao.SnapshotRequest` is not under src/ (only
its callers are).  Per spec section 3 it carries an identity, a target
service id, and result fields `SnapshotLabel` and `SnapshotError` that
start empty and are filled exactly once by the fulfiller. -/
structure SnapshotRequest where
  Id : String
  ServiceId : String
  SnapshotLabel : String
  SnapshotError : String
deriving Repr, DecidableEq

/-! ## Coordination store model -/

/-- Payload of a store node: a serialized entity.  JSON marshalling of an
entity is modelled by the corresponding constructor; unmarshalling into
an entity of kind `k` succeeds exactly when the payload was marshalled
from that kind (the `raw` constructor stands for any other/garbled
payload, whose unmarshal fails). -/
inductive ZData where
  | service (s : Service)
  | sstate (ss : SState)
  | hss (h : HostServiceState)
  | snapshotReq (r : SnapshotRequest)
  | snapshotState (s : String)
  | raw (bytes : String)
deriving Repr, DecidableEq

/-- A store node: payload plus store-assigned version. -/
structure ZNode where
  data : ZData
  version : Int
deriving Repr, DecidableEq

/-- Errors of the coordination layer.  `noNode`, `nodeExists` and
`badVersion` are the go-zookeeper sentinel errors; `jsonError` models a
marshalling failure; `timeout`/`shutdown`/`other` carry the
application-level errors built in the source. -/
inductive Err where
  | noNode
  | nodeExists
  | badVersion
  | jsonError
  | timeout (msg : String)
  | shutdown
  | other (msg : String)
deriving Repr, DecidableEq

/-- The coordination store: association list from path to node (first
binding wins). -/
abbrev Store := List (String × ZNode)

/-- Look up the node at a path. -/
def Store.lookup (s : Store) (p : String) : Option ZNode :=
  match s with
  | [] => none
  | (q, n) :: rest => if q = p then some n else Store.lookup rest p

/-- `conn.Get`: returns payload bytes and current version, or
`ErrNoNode`. -/
def zkGet (s : Store) (p : String) : Except Err (ZData × Int) :=
  match s.lookup p with
  | none => .error .noNode
  | some n => .ok (n.data, n.version)

/-- `conn.Create`: creates the node with version 0, failing with
`ErrNodeExists` when the path is already bound. -/
def zkCreate (s : Store) (p : String) (d : ZData) : Except Err Store :=
  match s.lookup p with
  | some _ => .error .nodeExists
  | none => .ok ((p, ⟨d, 0⟩) :: s)

/-- Replace the binding of `p` (leaving other bindings alone). -/
def Store.replace (s : Store) (p : String) (n : ZNode) : Store :=
  match s with
  | [] => []
  | (q, m) :: rest =>
      if q = p then (q, n) :: rest else (q, m) :: Store.replace rest p n

/-- `conn.Set` with an expected version: fails with `ErrNoNode` when the
node is absent and with `ErrBadVersion` when the presented version is
not the node's current version; on success stores the new payload and
bumps the version. -/
def zkSet (s : Store) (p : String) (d : ZData) (version : Int) :
    Except Err Store :=
  match s.lookup p with
  | none => .error .noNode
  | some n =>
      if n.version = version then .ok (s.replace p ⟨d, n.version + 1⟩)
      else .error .badVersion

/-- Remove the binding of `p`. -/
def Store.remove (s : Store) (p : String) : Store :=
  match s with
  | [] => []
  | (q, m) :: rest =>
      if q = p then rest else (q, m) :: Store.remove rest p

/-- `conn.Delete` with an expected version. -/
def zkDelete (s : Store) (p : String) (version : Int) : Except Err Store :=
  match s.lookup p with
  | none => .error .noNode
  | some n =>
      if n.version = version then .ok (s.remove p)
      else .error .badVersion

/-- Remove a leading sequence of characters, if it is present. -/
def dropLeading : List Char → List Char → Option (List Char)
  | [], rest => some rest
  | _ :: _, [] => none
  | c :: cs, d :: ds => if c = d then dropLeading cs ds else none

/-- Name of an immediate child of `p`, if `q` is a path one level below
`p`. -/
def childNameOf (p q : String) : Option String :=
  match dropLeading (p.data ++ ['/']) q.data with
  | none => none
  | some rest =>
      if rest ≠ [] ∧ '/' ∉ rest then some (String.mk rest) else none

/-- `conn.Children`: the names of the immediate children of `p`, or
`ErrNoNode` when `p` itself is absent. -/
def zkChildren (s : Store) (p : String) : Except Err (List String) :=
  match s.lookup p with
  | none => .error .noNode
  | some _ => .ok (s.filterMap fun kv => childNameOf p kv.1)

/-- `conn.Exists` on a given store snapshot. -/
def zkExists (s : Store) (p : String) : Bool :=
  (s.lookup p).isSome

/-! ## Path scheme (src/unnamed/part_003)

The values of the root constants `SERVICE_PATH`, `SCHEDULER_PATH` and
`SNAPSHOT_PATH` are not under src/.  Modelled from the spec: paths are
POSIX-style strings under fixed top-level roots `service/…`,
`scheduler/…`, and one singleton path for snapshot state. -/

/-- Modelled from the spec: the top-level root for services. -/
def SERVICE_PATH : String := "/services"

/-- Modelled from the spec: the top-level root for the per-host
scheduler entries. -/
def SCHEDULER_PATH : String := "/scheduler"

/-- Modelled from the spec: the singleton snapshot-state path. -/
def SNAPSHOT_PATH : String := "/snapshots"

/-- `zzk.HostPath`. -/
def HostPath (hostId : String) : String :=
  SCHEDULER_PATH ++ "/" ++ hostId

/-- `zzk.ServicePath`. -/
def ServicePath (serviceId : String) : String :=
  SERVICE_PATH ++ "/" ++ serviceId

/-- `zzk.ServiceStatePath`. -/
def ServiceStatePath (serviceId serviceStateId : String) : String :=
  SERVICE_PATH ++ "/" ++ serviceId ++ "/" ++ serviceStateId

/-- `zzk.HostServiceStatePath`. -/
def HostServiceStatePath (hostId serviceStateId : String) : String :=
  SCHEDULER_PATH ++ "/" ++ hostId ++ "/" ++ serviceStateId

/-! ## Marshalling model -/

/-- `json.Unmarshal` into a `dao.Service`. -/
def unmarshalService : ZData → Option Service
  | .service s => some s
  | _ => none

/-- `json.Unmarshal` into a `dao.ServiceState`. -/
def unmarshalSState : ZData → Option SState
  | .sstate ss => some ss
  | _ => none

/-- `json.Unmarshal` into a `zzk.HostServiceState`. -/
def unmarshalHss : ZData → Option HostServiceState
  | .hss h => some h
  | _ => none

/-! ## Load-and-update helpers (src/unnamed/part_003, lines 523-610)

Each helper reads bytes and version at the entity's path, unmarshals,
applies the caller's mutator, marshals, and issues a `Set` conditioned on
exactly the version read.  The read runs against the snapshot `sr` and
the conditional write against the snapshot `sw`; a concurrent writer in
between is modelled by `sw` differing from `sr`. -/

/-- `zzk.loadAndUpdateService`. -/
def loadAndUpdateService (sr sw : Store) (serviceId : String)
    (mutator : Service → Service) : Except Err Store :=
  let servicePath := ServicePath serviceId
  match zkGet sr servicePath with
  | .error e => .error e
  | .ok (d, version) =>
      match unmarshalService d with
      | none => .error .jsonError
      | some service =>
          zkSet sw servicePath (.service (mutator service)) version

/-- `zzk.LoadAndUpdateServiceState`. -/
def LoadAndUpdateServiceState (sr sw : Store) (serviceId ssId : String)
    (mutator : SState → SState) : Except Err Store :=
  let ssPath := ServiceStatePath serviceId ssId
  match zkGet sr ssPath with
  | .error e => .error e
  | .ok (d, version) =>
      match unmarshalSState d with
      | none => .error .jsonError
      | some ss =>
          zkSet sw ssPath (.sstate (mutator ss)) version

/-- `zzk.loadAndUpdateHss`. -/
def loadAndUpdateHss (sr sw : Store) (hostId hssId : String)
    (mutator : HostServiceState → HostServiceState) : Except Err Store :=
  let hssPath := HostServiceStatePath hostId hssId
  match zkGet sr hssPath with
  | .error e => .error e
  | .ok (d, version) =>
      match unmarshalHss d with
      | none => .error .jsonError
      | some hss =>
          zkSet sw hssPath (.hss (mutator hss)) version

/-! ### Lemmas about the store primitives -/

theorem zkSet_badVersion (s : Store) (p : String) (d : ZData) (v : Int)
    (n : ZNode) (hn : s.lookup p = some n) (hv : n.version ≠ v) :
    zkSet s p d v = .error .badVersion := by
  unfold zkSet
  rw [hn]
  simp [hv]

theorem zkGet_version (s : Store) (p : String) (n : ZNode)
    (hn : s.lookup p = some n) : zkGet s p = .ok (n.data, n.version) := by
  unfold zkGet
  rw [hn]

/-- C1: for every entity kind (Service, ServiceState, HostServiceState),
the load-and-update helper reads the node's current bytes and version,
applies the caller-supplied mutator to the deserialized entity, and
issues the write conditioned on exactly the version it just read; if the
entity changed between read and write (its version at write time differs
from the version read), the conditional write fails and the helper
returns the underlying conflict error (`ErrBadVersion`) with no retry. -/
theorem loadAndUpdate_version_conditioned
    (sr sw : Store) (serviceId ssId hostId : String)
    (fS : Service → Service) (fSS : SState → SState)
    (fH : HostServiceState → HostServiceState)
    (nS nSS nH : ZNode) (s : Service) (ss : SState) (h : HostServiceState)
    (hS : sr.lookup (ServicePath serviceId) = some nS)
    (hSd : nS.data = .service s)
    (hSS : sr.lookup (ServiceStatePath serviceId ssId) = some nSS)
    (hSSd : nSS.data = .sstate ss)
    (hH : sr.lookup (HostServiceStatePath hostId ssId) = some nH)
    (hHd : nH.data = .hss h) :
    (loadAndUpdateService sr sw serviceId fS
        = zkSet sw (ServicePath serviceId) (.service (fS s)) nS.version)
    ∧ (LoadAndUpdateServiceState sr sw serviceId ssId fSS
        = zkSet sw (ServiceStatePath serviceId ssId)
            (.sstate (fSS ss)) nSS.version)
    ∧ (loadAndUpdateHss sr sw hostId ssId fH
        = zkSet sw (HostServiceStatePath hostId ssId)
            (.hss (fH h)) nH.version)
    ∧ (∀ mS : ZNode, sw.lookup (ServicePath serviceId) = some mS →
        mS.version ≠ nS.version →
        loadAndUpdateService sr sw serviceId fS = .error .badVersion)
    ∧ (∀ mSS : ZNode, sw.lookup (ServiceStatePath serviceId ssId) = some mSS →
        mSS.version ≠ nSS.version →
        LoadAndUpdateServiceState sr sw serviceId ssId fSS
          = .error .badVersion)
    ∧ (∀ mH : ZNode, sw.lookup (HostServiceStatePath hostId ssId) = some mH →
        mH.version ≠ nH.version →
        loadAndUpdateHss sr sw hostId ssId fH = .error .badVersion) := by
  have eS : loadAndUpdateService sr sw serviceId fS
      = zkSet sw (ServicePath serviceId) (.service (fS s)) nS.version := by
    simp only [loadAndUpdateService, zkGet_version sr _ nS hS, hSd,
      unmarshalService]
  have eSS : LoadAndUpdateServiceState sr sw serviceId ssId fSS
      = zkSet sw (ServiceStatePath serviceId ssId)
          (.sstate (fSS ss)) nSS.version := by
    simp only [LoadAndUpdateServiceState, zkGet_version sr _ nSS hSS, hSSd,
      unmarshalSState]
  have eH : loadAndUpdateHss sr sw hostId ssId fH
      = zkSet sw (HostServiceStatePath hostId ssId)
          (.hss (fH h)) nH.version := by
    simp only [loadAndUpdateHss, zkGet_version sr _ nH hH, hHd,
      unmarshalHss]
  refine ⟨eS, eSS, eH, ?_, ?_, ?_⟩
  · intro mS hm hv
    rw [eS, zkSet_badVersion sw _ _ _ mS hm hv]
  · intro mSS hm hv
    rw [eSS, zkSet_badVersion sw _ _ _ mSS hm hv]
  · intro mH hm hv
    rw [eH, zkSet_badVersion sw _ _ _ mH hm hv]

/-- A concrete service used by the witnesses. -/
def wService : Service :=
  { Id := "s1", Name := "svc", Context := "", Startup := "run",
    Description := "", Instances := 1, ImageId := "img", PoolId := "default",
    DesiredState := SVC_RUN, Launch := "AUTO", Endpoints := none,
    ParentServiceId := "", CreatedAt := 0, UpdatedAt := 0 }

/-- A concrete service state used by the witnesses. -/
def wSState : SState :=
  { Id := "ss1", ServiceId := "s1", HostId := "h1", DockerId := "d1",
    PrivateIp := "10.0.0.1", Scheduled := 5, Terminated := 0, Started := 6,
    PortMapping := [], Endpoints := [], HostIp := "192.168.0.1" }

/-- A concrete host service state used by the witnesses. -/
def wHss : HostServiceState :=
  { HostId := "h1", ServiceId := "s1", ServiceStateId := "ss1",
    DesiredState := SVC_RUN }

/-- The store snapshot seen by the witnesses' reads. -/
def wStoreRead : Store :=
  [ (ServicePath "s1", ⟨.service wService, 3⟩),
    (ServiceStatePath "s1" "ss1", ⟨.sstate wSState, 2⟩),
    (HostServiceStatePath "h1" "ss1", ⟨.hss wHss, 1⟩) ]

/-- The store snapshot seen by the witnesses' writes: every node has been
modified (version bumped) by a concurrent writer since the read. -/
def wStoreWrite : Store :=
  [ (ServicePath "s1", ⟨.service wService, 4⟩),
    (ServiceStatePath "s1" "ss1", ⟨.sstate wSState, 3⟩),
    (HostServiceStatePath "h1" "ss1", ⟨.hss wHss, 2⟩) ]

/-- Witness for C1 at a concrete conflicting read/write pair: all three
helpers surface the version conflict. -/
theorem loadAndUpdate_version_conditioned_witness :
    loadAndUpdateService wStoreRead wStoreWrite "s1"
        (fun s => { s with DesiredState := SVC_STOP }) = .error .badVersion
    ∧ LoadAndUpdateServiceState wStoreRead wStoreWrite "s1" "ss1"
        (fun ss => { ss with Terminated := 9 }) = .error .badVersion
    ∧ loadAndUpdateHss wStoreRead wStoreWrite "h1" "ss1"
        (fun h => { h with DesiredState := SVC_STOP }) = .error .badVersion := by
  have h := loadAndUpdate_version_conditioned wStoreRead wStoreWrite
    "s1" "ss1" "h1"
    (fun s => { s with DesiredState := SVC_STOP })
    (fun ss => { ss with Terminated := 9 })
    (fun h => { h with DesiredState := SVC_STOP })
    ⟨.service wService, 3⟩ ⟨.sstate wSState, 2⟩ ⟨.hss wHss, 1⟩
    wService wSState wHss
    (by decide) (by decide) (by decide) (by decide) (by decide) (by decide)
  obtain ⟨_, _, _, h4, h5, h6⟩ := h
  refine ⟨?_, ?_, ?_⟩
  · exact h4 ⟨.service wService, 4⟩ (by decide) (by decide)
  · exact h5 ⟨.sstate wSState, 3⟩ (by decide) (by decide)
  · exact h6 ⟨.hss wHss, 2⟩ (by decide) (by decide)

/-! ## Entity CRUD (src/unnamed/part_003)

`AddService`, `AddServiceState` and `UpdateService` run one or more store
operations sequentially on one connection.  `AddServiceState`'s two
creates run back to back against the evolving store, so it is modelled
as a single-store sequential function returning the resulting store
together with the error returned to the caller (the store component
carries the side effects that persist even when an error is returned).
`UpdateService`'s read-then-write pair takes read/write snapshots like
the load-and-update helpers. -/

/-- `zzk.SsToHss`: ServiceState to HostServiceState conversion. -/
def SsToHss (ss : SState) : HostServiceState :=
  ⟨ss.HostId, ss.ServiceId, ss.Id, SVC_RUN⟩

/-- `zzk.AddService`: marshal the service and create its node. -/
def AddService (s : Store) (service : Service) : Except Err Store :=
  let servicePath := ServicePath service.Id
  zkCreate s servicePath (.service service)

/-- `zzk.AddServiceState`: create the primary ServiceState node, then
the HostServiceState shadow.  Returns the store after the operations
that actually executed, paired with the error handed to the caller. -/
def AddServiceState (s : Store) (state : SState) : Store × Option Err :=
  let serviceStatePath := ServiceStatePath state.ServiceId state.Id
  match zkCreate s serviceStatePath (.sstate state) with
  | .error e => (s, some e)
  | .ok s1 =>
      let hostServicePath := HostServiceStatePath state.HostId state.Id
      match zkCreate s1 hostServicePath (.hss (SsToHss state)) with
      | .error e => (s1, some e)
      | .ok s2 => (s2, none)

/-- `zzk.ZkDao.UpdateService`: read the service node; on any read error
fall back to `AddService`; on success issue a `Set` conditioned on the
version just read. -/
def UpdateService (sr sw : Store) (service : Service) : Except Err Store :=
  let servicePath := ServicePath service.Id
  match zkGet sr servicePath with
  | .error _ => AddService sw service
  | .ok (_, version) => zkSet sw servicePath (.service service) version

/-- `zzk.LoadService`: read and unmarshal a service, returning the
entity and the stat's version. -/
def LoadService (s : Store) (serviceId : String) :
    Except Err (Service × Int) :=
  match zkGet s (ServicePath serviceId) with
  | .error e => .error e
  | .ok (d, version) =>
      match unmarshalService d with
      | none => .error .jsonError
      | some service => .ok (service, version)

/-- C8: AddServiceState performs two separate creates — primary
ServiceState node first, then the HostServiceState shadow carrying the
same HostId, ServiceId and ServiceStateId.  If the first create fails
the store is untouched (so the shadow is never created) and the error is
returned; if the second create fails the already-created primary is left
in place with no rollback and the error is returned to the caller. -/
theorem AddServiceState_two_creates (s : Store) (st : SState) :
    ((SsToHss st).HostId = st.HostId ∧ (SsToHss st).ServiceId = st.ServiceId
      ∧ (SsToHss st).ServiceStateId = st.Id)
    ∧ (∀ e, zkCreate s (ServiceStatePath st.ServiceId st.Id) (.sstate st)
          = .error e →
        AddServiceState s st = (s, some e))
    ∧ (∀ s1 e,
        zkCreate s (ServiceStatePath st.ServiceId st.Id) (.sstate st)
          = .ok s1 →
        zkCreate s1 (HostServiceStatePath st.HostId st.Id)
            (.hss (SsToHss st)) = .error e →
        AddServiceState s st = (s1, some e)
          ∧ s1.lookup (ServiceStatePath st.ServiceId st.Id)
              = some ⟨.sstate st, 0⟩) := by
  refine ⟨⟨rfl, rfl, rfl⟩, ?_, ?_⟩
  · intro e he
    simp only [AddServiceState, he]
  · intro s1 e h1 h2
    constructor
    · simp only [AddServiceState, h1, h2]
    · unfold zkCreate at h1
      cases hl : s.lookup (ServiceStatePath st.ServiceId st.Id) with
      | some n => rw [hl] at h1; simp at h1
      | none =>
          rw [hl] at h1
          have h3 : s1 = (ServiceStatePath st.ServiceId st.Id,
              (⟨.sstate st, 0⟩ : ZNode)) :: s := by
            simpa using h1.symm
          subst h3
          simp [Store.lookup]

/-- Witness for C8: with the shadow path already occupied, the second
create fails, the primary stays in place and the `nodeExists` error is
returned. -/
theorem AddServiceState_two_creates_witness :
    AddServiceState
        [(HostServiceStatePath "h1" "ss1", ⟨.raw "x", 0⟩)] wSState
      = ((ServiceStatePath "s1" "ss1", ⟨.sstate wSState, 0⟩)
          :: [(HostServiceStatePath "h1" "ss1", ⟨.raw "x", 0⟩)],
         some .nodeExists)
    ∧ ((ServiceStatePath "s1" "ss1", (⟨.sstate wSState, 0⟩ : ZNode))
          :: [(HostServiceStatePath "h1" "ss1", ⟨.raw "x", 0⟩)]
        : Store).lookup (ServiceStatePath "s1" "ss1")
        = some ⟨.sstate wSState, 0⟩ :=
  (AddServiceState_two_creates
      [(HostServiceStatePath "h1" "ss1", ⟨.raw "x", 0⟩)] wSState).2.2
    ((ServiceStatePath "s1" "ss1", ⟨.sstate wSState, 0⟩)
        :: [(HostServiceStatePath "h1" "ss1", ⟨.raw "x", 0⟩)])
    .nodeExists (by rfl) (by rfl)

/-- C9: UpdateService is an upsert.  When the read fails for any reason
(including the node being absent) it does not return the read error but
falls back to creating the node via AddService; only when the read
succeeds does it perform the version-conditioned Set. -/
theorem UpdateService_upsert (sr sw : Store) (service : Service) :
    (∀ e, zkGet sr (ServicePath service.Id) = .error e →
        UpdateService sr sw service = AddService sw service)
    ∧ (∀ d v, zkGet sr (ServicePath service.Id) = .ok (d, v) →
        UpdateService sr sw service
          = zkSet sw (ServicePath service.Id) (.service service) v) := by
  constructor
  · intro e he
    simp only [UpdateService, he]
  · intro d v hv
    simp only [UpdateService, hv]

/-- Witness for C9: reading from an empty store fails with `noNode`, and
the fall-back create succeeds rather than surfacing the read error. -/
theorem UpdateService_upsert_witness :
    UpdateService [] [] wService = AddService [] wService
    ∧ AddService [] wService
        = .ok [(ServicePath "s1", ⟨.service wService, 0⟩)] :=
  ⟨(UpdateService_upsert [] [] wService).1 .noNode (by rfl), by rfl⟩

/-- C10: every HostServiceState shadow produced by the conversion (and
therefore every shadow written by AddServiceState) has DesiredState set
to SVC_RUN (1) unconditionally — the owning Service's DesiredState is
not even an input, so a state created for a STOPped service still
records desired state RUN in its shadow. -/
theorem SsToHss_desiredState_run :
    (∀ ss : SState, SsToHss ss
        = ⟨ss.HostId, ss.ServiceId, ss.Id, SVC_RUN⟩
      ∧ (SsToHss ss).DesiredState = 1)
    ∧ (∀ (s : Store) (st : SState) (s2 : Store),
        AddServiceState s st = (s2, none) →
        s2.lookup (HostServiceStatePath st.HostId st.Id)
          = some ⟨.hss ⟨st.HostId, st.ServiceId, st.Id, 1⟩, 0⟩) := by
  constructor
  · intro ss
    exact ⟨rfl, rfl⟩
  · intro s st s2 h
    cases h1 : zkCreate s (ServiceStatePath st.ServiceId st.Id)
        (.sstate st) with
    | error e => simp [AddServiceState, h1] at h
    | ok s1 =>
        cases h2 : zkCreate s1 (HostServiceStatePath st.HostId st.Id)
            (.hss (SsToHss st)) with
        | error e => simp [AddServiceState, h1, h2] at h
        | ok s2' =>
            simp only [AddServiceState, h1, h2, Prod.mk.injEq] at h
            obtain ⟨hs2, -⟩ := h
            subst hs2
            unfold zkCreate at h2
            cases hl : s1.lookup (HostServiceStatePath st.HostId st.Id) with
            | some n => rw [hl] at h2; simp at h2
            | none =>
                rw [hl] at h2
                have h3 : s2' = (HostServiceStatePath st.HostId st.Id,
                    (⟨.hss (SsToHss st), 0⟩ : ZNode)) :: s1 := by
                  simpa using h2.symm
                subst h3
                simp [Store.lookup, SsToHss, SVC_RUN]

/-- Witness for C10: a successful AddServiceState on the empty store for
a state whose owning service is stopped still writes a shadow with
DesiredState 1. -/
theorem SsToHss_desiredState_run_witness :
    (Store.lookup
        ((HostServiceStatePath "h1" "ss1", ⟨.hss (SsToHss wSState), 0⟩)
          :: [(ServiceStatePath "s1" "ss1", ⟨.sstate wSState, 0⟩)])
        (HostServiceStatePath "h1" "ss1"))
      = some ⟨.hss ⟨"h1", "s1", "ss1", 1⟩, 0⟩ :=
  (SsToHss_desiredState_run).2 [] wSState
    ((HostServiceStatePath "h1" "ss1", ⟨.hss (SsToHss wSState), 0⟩)
      :: [(ServiceStatePath "s1" "ss1", ⟨.sstate wSState, 0⟩)])
    (by rfl)

/-! ## Snapshot wait protocol (src/unnamed/part_000, lines 200-253)

`ControlPlaneDao.Snapshot` creates a snapshot request and then polls it:
each loop iteration reloads the request (via `LoadSnapshotRequestW`,
which is not under src/ and is modelled as an oracle `loads` giving the
load result at each successive poll), aborts on a load error, aborts
with `errors.New(SnapshotError)` when the error field is non-empty,
succeeds with `SnapshotLabel` when the label field is non-empty, and
otherwise sleeps one second and re-polls.  The 60-second wall-clock
ceiling with a 1-second sleep per iteration is modelled as a fuel of 60
polls; exhausting the fuel is the `time.Now().Before(endTime)` guard
failing, upon which the timeout error naming the request is returned. -/

/-- The polling loop of `ControlPlaneDao.Snapshot`.  `fuel` is the
number of remaining 1-second poll slots, `k` the index of the next poll,
and `req` the current contents of the request struct (overwritten by
each successful load). -/
def snapshotWaitLoop (loads : Nat → Except Err SnapshotRequest) :
    Nat → Nat → SnapshotRequest → Except Err String
  | 0, _, req =>
      .error (.timeout ("timed out waiting 60s for snapshot: " ++ req.Id))
  | f + 1, k, req =>
      match loads k with
      | .error e => .error e
      | .ok r =>
          if r.SnapshotError ≠ "" then .error (.other r.SnapshotError)
          else if r.SnapshotLabel ≠ "" then .ok r.SnapshotLabel
          else snapshotWaitLoop loads f (k + 1) r

/-- The wait portion of `ControlPlaneDao.Snapshot`: 60 seconds at
1-second granularity gives 60 polls. -/
def Snapshot (loads : Nat → Except Err SnapshotRequest)
    (req : SnapshotRequest) : Except Err String :=
  snapshotWaitLoop loads 60 0 req

/-- Poll `j` was inconclusive: the load succeeded but neither result
field of the request (whose identity is `id`) was set yet. -/
def snapPending (loads : Nat → Except Err SnapshotRequest) (id : String)
    (j : Nat) : Prop :=
  ∃ r, loads j = .ok r ∧ r.SnapshotError = "" ∧ r.SnapshotLabel = ""
    ∧ r.Id = id

theorem snapshotWaitLoop_skip (loads : Nat → Except Err SnapshotRequest)
    (id : String) :
    ∀ (m f k : Nat) (req : SnapshotRequest), req.Id = id →
    (∀ j, k ≤ j → j < k + m → snapPending loads id j) →
    ∃ req', req'.Id = id ∧
      snapshotWaitLoop loads (m + f) k req
        = snapshotWaitLoop loads f (k + m) req' := by
  intro m
  induction m with
  | zero =>
      intro f k req hid _
      exact ⟨req, hid, by simp⟩
  | succ m ih =>
      intro f k req hid hpend
      obtain ⟨r, hr, he, hl, hrid⟩ :=
        hpend k (Nat.le_refl k) (by omega)
      have hstep : snapshotWaitLoop loads (m + 1 + f) k req
          = snapshotWaitLoop loads (m + f) (k + 1) r := by
        have : m + 1 + f = (m + f) + 1 := by omega
        rw [this]
        simp [snapshotWaitLoop, hr, he, hl]
      obtain ⟨req', hid', heq⟩ := ih f (k + 1) r hrid
        (by intro j hj1 hj2; exact hpend j (by omega) (by omega))
      refine ⟨req', hid', ?_⟩
      rw [hstep, heq]
      congr 1
      omega

/-- C2: the snapshot wait polls at 1-second intervals for up to a
60-second ceiling (60 polls).  While earlier polls are inconclusive: a
load error at the current poll aborts immediately with that error; a
non-empty `SnapshotError` aborts with exactly that stored string; a
non-empty `SnapshotLabel` succeeds with that label.  If all 60 polls are
inconclusive, the result is a timeout error naming the request. -/
theorem Snapshot_poll_protocol (loads : Nat → Except Err SnapshotRequest)
    (req : SnapshotRequest) :
    (∀ k, k < 60 → (∀ j, j < k → snapPending loads req.Id j) →
      (∀ e, loads k = .error e → Snapshot loads req = .error e)
      ∧ (∀ r, loads k = .ok r → r.SnapshotError ≠ "" →
          Snapshot loads req = .error (.other r.SnapshotError))
      ∧ (∀ r, loads k = .ok r → r.SnapshotError = "" →
          r.SnapshotLabel ≠ "" → Snapshot loads req = .ok r.SnapshotLabel))
    ∧ ((∀ j, j < 60 → snapPending loads req.Id j) →
        Snapshot loads req = .error (.timeout
          ("timed out waiting 60s for snapshot: " ++ req.Id))) := by
  constructor
  · intro k hk hpend
    obtain ⟨req', hid', heq⟩ := snapshotWaitLoop_skip loads req.Id
      k ((59 - k) + 1) 0 req rfl
      (by intro j hj1 hj2; exact hpend j (by omega))
    have h60 : Snapshot loads req
        = snapshotWaitLoop loads ((59 - k) + 1) k req' := by
      unfold Snapshot
      have hk60 : (60 : Nat) = k + ((59 - k) + 1) := by omega
      rw [hk60, heq]
      congr 1
      omega
    refine ⟨?_, ?_, ?_⟩
    · intro e he
      rw [h60]
      simp [snapshotWaitLoop, he]
    · intro r hr herr
      rw [h60]
      simp [snapshotWaitLoop, hr, herr]
    · intro r hr herr hlab
      rw [h60]
      simp [snapshotWaitLoop, hr, herr, hlab]
  · intro hpend
    obtain ⟨req', hid', heq⟩ := snapshotWaitLoop_skip loads req.Id
      60 0 0 req rfl
      (by intro j hj1 hj2; exact hpend j (by omega))
    unfold Snapshot
    have hk60 : (60 : Nat) = 60 + 0 := by omega
    rw [hk60, heq]
    simp [snapshotWaitLoop, hid']

/-- Concrete poll oracle for the C2 witness: the first poll is
inconclusive, the second finds `SnapshotError = "disk full"`. -/
def wLoads : Nat → Except Err SnapshotRequest := fun k =>
  if k = 0 then .ok ⟨"req1", "s1", "", ""⟩
  else .ok ⟨"req1", "s1", "", "disk full"⟩

/-- The request the C2 witness waits on. -/
def wRequest : SnapshotRequest := ⟨"req1", "s1", "", ""⟩

/-- Witness for C2: the waiting call returns exactly the stored error
string, not a generic failure. -/
theorem Snapshot_poll_protocol_witness :
    Snapshot wLoads wRequest = .error (.other "disk full") :=
  ((Snapshot_poll_protocol wLoads wRequest).1 1 (by omega)
    (by
      intro j hj
      have hj0 : j = 0 := by omega
      subst hj0
      exact ⟨⟨"req1", "s1", "", ""⟩, rfl, rfl, rfl, rfl⟩)).2.1
    ⟨"req1", "s1", "", "disk full"⟩ rfl (by decide)

/-! ## RemoveService with children drain (src/unnamed/part_003, 312-357)

`RemoveService` first marks the service as stopping through the
load-and-update helper, then repeatedly watches the service node's
children, then loads the service and deletes its node with the version
just loaded.  The store contents at the `k`-th store operation are given
by the environment `env k`; the outcome of each `select` between the
child watch and the 30-second `time.After` timer is given by `ev`. -/

/-- Outcome of the `select` inside `RemoveService`'s drain loop: either
the children watch fired, or the 30-second timer did. -/
inductive DrainEvent where
  | watchFired
  | timeout30
deriving Repr, DecidableEq

/-- The drain loop of `RemoveService`: `conn.ChildrenW` until the child
list is empty (returning the index of the next store operation), a
children error (returned to the caller), or a 30-second wait with no
watch event (timeout naming the path).  `i` and `w` index into `env`
and `ev`. -/
def drainLoop (env : Nat → Store) (ev : Nat → DrainEvent)
    (servicePath : String) : Nat → Nat → Nat → Except Err Nat
  | 0, _, _ => .error (.other "fuel exhausted")
  | f + 1, i, w =>
      match zkChildren (env i) servicePath with
      | .error e => .error e
      | .ok [] => .ok (i + 1)
      | .ok (_ :: _) =>
          match ev w with
          | .watchFired => drainLoop env ev servicePath f (i + 1) (w + 1)
          | .timeout30 =>
              .error (.timeout
                ("Timed out waiting for children to die for " ++ servicePath))

/-- `zzk.RemoveService`: mark DesiredState STOP via the versioned
load-and-update helper, drain the children, then load the service and
delete its node with the loaded version. -/
def RemoveService (env : Nat → Store) (ev : Nat → DrainEvent)
    (fuel : Nat) (id : String) : Except Err Store :=
  let servicePath := ServicePath id
  match loadAndUpdateService (env 0) (env 1) id
      (fun s => { s with DesiredState := SVC_STOP }) with
  | .error e => .error e
  | .ok _ =>
      match drainLoop env ev servicePath fuel 2 0 with
      | .error e => .error e
      | .ok i =>
          match LoadService (env i) id with
          | .error e => .error e
          | .ok (_, version) => zkDelete (env (i + 1)) servicePath version

/-- C3: RemoveService first issues the STOP mutation through the
versioned helper (and aborts with its error when it fails); with
children still present when the 30-second wait fires, it fails with a
timeout naming the service's path and does not delete the node; with
zero children at the first check it proceeds immediately; and once the
drain loop exits with zero children it deletes the service node using
exactly the version from its last read of the service. -/
theorem RemoveService_stop_drain_delete (env : Nat → Store)
    (ev : Nat → DrainEvent) (f : Nat) (id : String) :
    (∀ s v, (env 0).lookup (ServicePath id) = some ⟨.service s, v⟩ →
        loadAndUpdateService (env 0) (env 1) id
            (fun s => { s with DesiredState := SVC_STOP })
          = zkSet (env 1) (ServicePath id)
              (.service { s with DesiredState := SVC_STOP }) v)
    ∧ (∀ e, loadAndUpdateService (env 0) (env 1) id
          (fun s => { s with DesiredState := SVC_STOP }) = .error e →
        RemoveService env ev (f + 1) id = .error e)
    ∧ (∀ s1, loadAndUpdateService (env 0) (env 1) id
          (fun s => { s with DesiredState := SVC_STOP }) = .ok s1 →
        (∀ c cs, zkChildren (env 2) (ServicePath id) = .ok (c :: cs) →
            ev 0 = .timeout30 →
            RemoveService env ev (f + 1) id = .error (.timeout
              ("Timed out waiting for children to die for "
                ++ ServicePath id)))
        ∧ (zkChildren (env 2) (ServicePath id) = .ok [] →
            drainLoop env ev (ServicePath id) (f + 1) 2 0 = .ok 3)
        ∧ (∀ i, drainLoop env ev (ServicePath id) (f + 1) 2 0 = .ok i →
            (∀ e, LoadService (env i) id = .error e →
                RemoveService env ev (f + 1) id = .error e)
            ∧ (∀ s v, LoadService (env i) id = .ok (s, v) →
                RemoveService env ev (f + 1) id
                  = zkDelete (env (i + 1)) (ServicePath id) v))) := by
  refine ⟨?_, ?_, ?_⟩
  · intro s v hl
    simp only [loadAndUpdateService,
      zkGet_version (env 0) _ ⟨.service s, v⟩ hl, unmarshalService]
  · intro e he
    simp only [RemoveService, he]
  · intro s1 hok
    refine ⟨?_, ?_, ?_⟩
    · intro c cs hch hev
      simp only [RemoveService, hok]
      simp only [drainLoop, hch, hev]
    · intro hch
      simp only [drainLoop, hch]
    · intro i hdrain
      constructor
      · intro e he
        simp only [RemoveService, hok, hdrain, he]
      · intro s v hv
        simp only [RemoveService, hok, hdrain, hv]

/-- Constant environment for the C3 witness: the service exists with one
child that never goes away. -/
def wEnvRS : Nat → Store := fun _ =>
  [ (ServicePath "s1", ⟨.service wService, 3⟩),
    (ServiceStatePath "s1" "ss1", ⟨.sstate wSState, 2⟩) ]

/-- Wait outcomes for the C3 witness: the 30-second timer always fires
before any child-watch event. -/
def wEvRS : Nat → DrainEvent := fun _ => .timeout30

/-- Witness for C3: with one child still present after the 30-second
wait, RemoveService fails with the timeout naming the service's path. -/
theorem RemoveService_stop_drain_delete_witness :
    RemoveService wEnvRS wEvRS 1 "s1" = .error (.timeout
      ("Timed out waiting for children to die for " ++ ServicePath "s1")) :=
  (((RemoveService_stop_drain_delete wEnvRS wEvRS 0 "s1").2.2
      (Store.replace (wEnvRS 1) (ServicePath "s1")
        ⟨.service { wService with DesiredState := SVC_STOP }, 4⟩)
      (by rfl)).1) "ss1" [] (by rfl) rfl

/-! ## The Listen reconciliation loop (src/zzk/zzk.go, lines 117-185)

Each iteration of `Listen`'s loop lists the children of the watched
path, spawns one goroutine per untracked child (recording it in the
`processing` set), calls `PostProcess`, and then selects among the
watch event, a worker's completion signal on `done`, and the external
shutdown channel.  An iteration of the model consumes one `LoopInput`:
either a `ChildrenW` failure, or a child list together with the event
the `select` delivered.  The `processing` set is modelled as a list;
because a worker is removed from `processing` exactly when its `done`
signal is received (which synchronizes with the worker goroutine's
exit), `processing` is also the list of currently live workers. -/

/-- Which case of `Listen`'s `select` fired. -/
inductive SelOut where
  | evtOther
  | evtDeleted
  | done (node : String)
  | shutdown
deriving Repr, DecidableEq

/-- One loop iteration's input: a `ChildrenW` error, or the child list
with the select outcome. -/
inductive LoopInput where
  | childErr
  | iter (children : List String) (sel : SelOut)
deriving Repr, DecidableEq

/-- How the `Listen` loop exited (`running` marks the end of the
observation window with the loop still alive). -/
inductive ExitKind where
  | watchError
  | nodeDeleted
  | shutdown
  | running
deriving Repr, DecidableEq

/-- The spawn pass of one iteration: walk the child list in order; a
child not yet in `processing` is marked tracked and spawned.  Returns
the new `processing` set and the children spawned in this pass. -/
def spawnPhase : List String → List String → List String × List String
  | processing, [] => (processing, [])
  | processing, n :: ns =>
      if n ∈ processing then spawnPhase processing ns
      else
        let r := spawnPhase (processing ++ [n]) ns
        (r.1, n :: r.2)

/-- The `Listen` loop itself, consuming iteration inputs until an exit. -/
def listenLoop : List String → List LoopInput → List String × ExitKind
  | processing, [] => (processing, .running)
  | processing, .childErr :: _ => (processing, .watchError)
  | processing, .iter children sel :: rest =>
      let p' := (spawnPhase processing children).1
      match sel with
      | .evtDeleted => (p', .nodeDeleted)
      | .evtOther => listenLoop p' rest
      | .done n => listenLoop (p'.erase n) rest
      | .shutdown => (p', .shutdown)

theorem spawnPhase_fst (children processing : List String) :
    (spawnPhase processing children).1
      = processing ++ (spawnPhase processing children).2 := by
  induction children generalizing processing with
  | nil => simp [spawnPhase]
  | cons n ns ih =>
      by_cases h : n ∈ processing
      · simp [spawnPhase, h, ih]
      · simp only [spawnPhase, if_neg h]
        rw [ih (processing ++ [n])]
        simp

theorem spawnPhase_spawned_not_tracked (children processing : List String) :
    ∀ n ∈ (spawnPhase processing children).2, n ∉ processing := by
  induction children generalizing processing with
  | nil => simp [spawnPhase]
  | cons m ms ih =>
      by_cases h : m ∈ processing
      · simpa [spawnPhase, h] using ih processing
      · simp only [spawnPhase, if_neg h]
        intro n hn
        rcases List.mem_cons.mp hn with rfl | hn'
        · exact h
        · have := ih (processing ++ [m]) n hn'
          intro hc
          exact this (List.mem_append_left _ hc)

theorem spawnPhase_spawned_nodup (children processing : List String) :
    (spawnPhase processing children).2.Nodup := by
  induction children generalizing processing with
  | nil => simp [spawnPhase]
  | cons m ms ih =>
      by_cases h : m ∈ processing
      · simpa [spawnPhase, h] using ih processing
      · simp only [spawnPhase, if_neg h]
        refine List.Nodup.cons ?_ (ih (processing ++ [m]))
        intro hc
        exact spawnPhase_spawned_not_tracked ms (processing ++ [m]) m hc
          (List.mem_append_right _ (List.mem_singleton.mpr rfl))

theorem spawnPhase_spawned_sub (children processing : List String) :
    ∀ n ∈ (spawnPhase processing children).2, n ∈ children := by
  induction children generalizing processing with
  | nil => simp [spawnPhase]
  | cons m ms ih =>
      by_cases h : m ∈ processing
      · intro n hn
        exact List.mem_cons_of_mem m
          (ih processing n (by simpa [spawnPhase, h] using hn))
      · simp only [spawnPhase, if_neg h]
        intro n hn
        rcases List.mem_cons.mp hn with rfl | hn'
        · exact List.mem_cons_self n ms
        · exact List.mem_cons_of_mem m (ih (processing ++ [m]) n hn')

theorem spawnPhase_mem_fst (children processing : List String) :
    ∀ n ∈ children, n ∈ (spawnPhase processing children).1 := by
  induction children generalizing processing with
  | nil => simp
  | cons m ms ih =>
      intro n hn
      by_cases h : m ∈ processing
      · rcases List.mem_cons.mp hn with rfl | hn'
        · simp only [spawnPhase, if_neg, h, if_pos]
          rw [spawnPhase_fst]
          exact List.mem_append_left _ h
        · simpa [spawnPhase, h] using ih processing n hn'
      · simp only [spawnPhase, if_neg h]
        rcases List.mem_cons.mp hn with rfl | hn'
        · rw [spawnPhase_fst]
          exact List.mem_append_left _
            (List.mem_append_right _ (List.mem_singleton.mpr rfl))
        · exact ih (processing ++ [m]) n hn'

theorem spawnPhase_nodup (children processing : List String)
    (h : processing.Nodup) : (spawnPhase processing children).1.Nodup := by
  rw [spawnPhase_fst]
  rw [List.nodup_append]
  refine ⟨h, spawnPhase_spawned_nodup children processing, ?_⟩
  intro a ha hb
  exact spawnPhase_spawned_not_tracked children processing a hb ha

theorem listenLoop_nodup (ins : List LoopInput) (processing : List String)
    (h : processing.Nodup) : (listenLoop processing ins).1.Nodup := by
  induction ins generalizing processing with
  | nil => simpa [listenLoop] using h
  | cons inp rest ih =>
      cases inp with
      | childErr => simpa [listenLoop] using h
      | iter children sel =>
          cases sel with
          | evtDeleted =>
              simpa [listenLoop] using spawnPhase_nodup children processing h
          | evtOther =>
              simpa [listenLoop] using
                ih _ (spawnPhase_nodup children processing h)
          | done n =>
              simpa [listenLoop] using
                ih _ ((spawnPhase_nodup children processing h).erase n)
          | shutdown =>
              simpa [listenLoop] using spawnPhase_nodup children processing h

/-- C5: the spawn pass spawns only children not already tracked, at most
once each, and the new tracked set is the old one plus exactly the
spawned children; re-listing an unchanged child set spawns nothing; and
along any run of the loop from a duplicate-free tracked set the tracked
set (equivalently, the set of live workers, since a worker leaves the
set exactly when its completion is received on `done`) stays
duplicate-free — so two concurrent workers for the same child name never
exist. -/
theorem Listen_spawn_once (children processing : List String)
    (ins : List LoopInput) (h : processing.Nodup) :
    ((spawnPhase processing children).1
        = processing ++ (spawnPhase processing children).2)
    ∧ (∀ n ∈ (spawnPhase processing children).2, n ∉ processing)
    ∧ (spawnPhase processing children).2.Nodup
    ∧ (spawnPhase (spawnPhase processing children).1 children).2 = []
    ∧ (listenLoop processing ins).1.Nodup := by
  refine ⟨spawnPhase_fst children processing,
    spawnPhase_spawned_not_tracked children processing,
    spawnPhase_spawned_nodup children processing, ?_,
    listenLoop_nodup ins processing h⟩
  by_contra hne
  rcases List.exists_mem_of_ne_nil _ hne with ⟨n, hn⟩
  have h1 : n ∈ children :=
    spawnPhase_spawned_sub children (spawnPhase processing children).1 n hn
  have h2 : n ∉ (spawnPhase processing children).1 :=
    spawnPhase_spawned_not_tracked children (spawnPhase processing children).1
      n hn
  exact h2 (spawnPhase_mem_fst children processing n h1)

/-- Witness for C5: running the loop with children {A, B} over several
iterations spawns A and B once each and keeps the tracked set
duplicate-free. -/
theorem Listen_spawn_once_witness :
    (spawnPhase [] ["A", "B"]).1 = [] ++ (spawnPhase [] ["A", "B"]).2
    ∧ (spawnPhase (spawnPhase [] ["A", "B"]).1 ["A", "B"]).2 = []
    ∧ (listenLoop []
        [.iter ["A", "B"] .evtOther, .iter ["A", "B"] (.done "A"),
         .iter ["A", "B"] .shutdown]).1.Nodup := by
  have h := Listen_spawn_once ["A", "B"] []
    [.iter ["A", "B"] .evtOther, .iter ["A", "B"] (.done "A"),
     .iter ["A", "B"] .shutdown] List.nodup_nil
  exact ⟨h.1, h.2.2.2.1, h.2.2.2.2⟩

/-! ## Listen's exit path (src/zzk/zzk.go, lines 138-145 and 171-184)

On any exit of the loop the deferred function runs: it calls the
listener's `Done` cleanup hook, closes the internal `_shutdown`
broadcast channel, and then drains `done` until the `processing` set is
empty.  A node-deleted watch event is one of the return paths of the
loop body (logged at verbosity 1, not as an error), exactly like the
external-shutdown path; only a `ChildrenW` failure is logged via
`glog.Errorf`. -/

/-- The deferred drain: receive completion signals (in the order given
by `order`) and delete each from `processing` until it is empty. -/
def drainWorkers : List String → List String → List String
  | processing, [] => processing
  | processing, n :: ns =>
      if processing = [] then processing
      else drainWorkers (processing.erase n) ns

/-- What `Listen` did on its way out. -/
structure RunOutcome where
  exit : ExitKind
  doneHookRan : Bool
  shutdownBroadcast : Bool
  drained : List String
deriving Repr, DecidableEq

/-- Whether an exit path logs through `glog.Errorf` (the only
error-reporting channel `Listen` has after readiness: it returns
nothing to its caller). -/
def exitLogsError : ExitKind → Bool
  | .watchError => true
  | _ => false

/-- A full run of `Listen` after readiness: the loop followed by the
deferred cleanup, whose drain receives the outstanding workers'
completion signals in the order `drainOrder`. -/
def listenRun (ins : List LoopInput) (drainOrder : List String) :
    RunOutcome :=
  let r := listenLoop [] ins
  { exit := r.2, doneHookRan := true, shutdownBroadcast := true,
    drained := drainWorkers r.1 drainOrder }

theorem drainWorkers_perm (order processing : List String)
    (hperm : order.Perm processing) (hnd : processing.Nodup) :
    drainWorkers processing order = [] := by
  induction order generalizing processing with
  | nil =>
      have : processing = [] := (List.Perm.nil_eq hperm).symm
      simpa [drainWorkers] using this
  | cons n ns ih =>
      have hne : processing ≠ [] := by
        intro hc
        subst hc
        exact absurd hperm.length_eq (by simp)
      rw [List.cons_perm_iff_perm_erase] at hperm
      simp only [drainWorkers, if_neg hne]
      exact ih (processing.erase n) hperm.2 (hnd.erase n)

/-- C7: if the watch delivers a node-deleted event, `Listen` exits its
loop exactly as on shutdown — the cleanup hook runs, the internal
shutdown broadcast is closed, and the completion signals of every
still-outstanding worker are drained to empty — and this exit path does
not log through the error channel. -/
theorem Listen_nodeDeleted_is_shutdown (ins : List LoopInput)
    (st : List String) (drainOrder : List String)
    (hrun : listenLoop [] ins = (st, .nodeDeleted))
    (hord : drainOrder.Perm st) :
    listenRun ins drainOrder
      = { exit := .nodeDeleted, doneHookRan := true,
          shutdownBroadcast := true, drained := [] }
    ∧ exitLogsError .nodeDeleted = false
    ∧ (∀ ins' st', listenLoop [] ins' = (st', .shutdown) →
        (listenRun ins' drainOrder).doneHookRan
            = (listenRun ins drainOrder).doneHookRan
        ∧ (listenRun ins' drainOrder).shutdownBroadcast
            = (listenRun ins drainOrder).shutdownBroadcast) := by
  have hnd : st.Nodup := by
    have := listenLoop_nodup ins [] List.nodup_nil
    rw [hrun] at this
    exact this
  refine ⟨?_, rfl, ?_⟩
  · unfold listenRun
    rw [hrun]
    simp only
    rw [drainWorkers_perm drainOrder st hord hnd]
  · intro ins' st' h'
    exact ⟨rfl, rfl⟩

/-- Witness for C7: a run whose second iteration sees the node deleted
exits with the full cleanup record and an empty drain. -/
theorem Listen_nodeDeleted_is_shutdown_witness :
    listenRun [.iter ["A"] .evtOther, .iter ["A", "B"] .evtDeleted] ["B", "A"]
      = { exit := .nodeDeleted, doneHookRan := true,
          shutdownBroadcast := true, drained := [] }
    ∧ exitLogsError .nodeDeleted = false :=
  have h := Listen_nodeDeleted_is_shutdown
    [.iter ["A"] .evtOther, .iter ["A", "B"] .evtDeleted] ["A", "B"]
    ["B", "A"] (by rfl) (by decide)
  ⟨h.1, h.2.1⟩

/-! ## Start master/slave orchestration (src/zzk/zzk.go, lines 190-235)

`Start` launches the master listener in a goroutine that closes `done`
when it finishes (or, if no master is given, waits for the internal
shutdown).  It then selects among the master's readiness result, `done`,
and the external shutdown; only a nil readiness starts the dependent
listeners, each registered in the wait group.  A second select waits for
`done` or external shutdown, after which `Start` closes the internal
shutdown broadcast and calls `wg.Wait()` — the wait group holds exactly
the dependent listeners, not the master goroutine.

The model's environment records which case each select took and whether
the master goroutine had actually exited by the time `Start` returns;
validity captures the channel semantics: a receive on the closed `done`
channel can only have happened if the master goroutine finished. -/

/-- Which case `Start`'s first select took: readiness with nil error,
readiness with a non-nil error, the master's `done` closing, or the
external shutdown. -/
inductive FirstSel where
  | readyOk
  | readyErr
  | masterDone
  | shutdownExt
deriving Repr, DecidableEq

/-- Which case `Start`'s second select took. -/
inductive SecondSel where
  | masterDone
  | shutdownExt
deriving Repr, DecidableEq

/-- A schedule for one execution of `Start`. -/
structure StartEnv where
  first : FirstSel
  second : SecondSel
  masterFinished : Bool
deriving Repr, DecidableEq

/-- Channel semantics constraint: `done` is closed by the master
goroutine's defer, so a select that received on `done` implies the
master goroutine finished before `Start` returned. -/
def StartEnv.valid (e : StartEnv) : Prop :=
  (e.first = .masterDone ∨ e.second = .masterDone) → e.masterFinished = true

/-- Observable outcome of `Start`: whether the dependent listeners were
launched, whether `Start` waited for all launched dependents to unwind
(`wg.Wait()`), and whether the master goroutine had finished by the time
`Start` returned. -/
structure StartOutcome where
  slavesStarted : Bool
  slavesJoined : Bool
  masterFinishedAtReturn : Bool
deriving Repr, DecidableEq

/-- `zzk.Start` under a schedule: dependents are launched only in the
nil-readiness case of the first select; `wg.Wait()` on the return path
joins every launched dependent; nothing on the return path joins the
master goroutine itself — the second select merely waits for `done` or
the external shutdown, whichever is first. -/
def Start (e : StartEnv) : StartOutcome :=
  { slavesStarted := decide (e.first = .readyOk)
  , slavesJoined := true
  , masterFinishedAtReturn := e.masterFinished }

/-- Counterexample to C6 as stated: under the schedule where the master
becomes ready (dependents started), the external shutdown fires before
the master finishes, and the master goroutine is still unwinding when
`Start`'s `wg.Wait()` (which holds only the dependents) returns, `Start`
returns without the master goroutine having finished. -/
theorem Start_counterexample :
    StartEnv.valid ⟨.readyOk, .shutdownExt, false⟩
    ∧ (Start ⟨.readyOk, .shutdownExt, false⟩).slavesStarted = true
    ∧ (Start ⟨.readyOk, .shutdownExt, false⟩).masterFinishedAtReturn
        = false := by
  refine ⟨?_, rfl, rfl⟩
  intro h
  rcases h with h | h <;> exact absurd h (by decide)

/-- C6 (amended): Start launches the dependent listeners only when the
first select delivers a nil readiness signal (so a failed master startup
never starts them), and on every return path waits for all launched
dependents to unwind; it is guaranteed to return only after the master
goroutine has finished when one of its selects received the master's
completion — on the external-shutdown path it may return while the
master goroutine is still unwinding. -/
theorem Start_orchestration (e : StartEnv) (hv : e.valid) :
    ((Start e).slavesStarted = true ↔ e.first = .readyOk)
    ∧ (Start e).slavesJoined = true
    ∧ ((e.first = .masterDone ∨ e.second = .masterDone) →
        (Start e).masterFinishedAtReturn = true) := by
  refine ⟨?_, rfl, ?_⟩
  · simp [Start]
  · intro h
    simpa [Start] using hv h

/-- Witness for C6 (amended): with a failed master readiness the
dependents are not started, and a receive on `done` guarantees the
master finished before return. -/
theorem Start_orchestration_witness :
    ((Start ⟨.readyErr, .masterDone, true⟩).slavesStarted = true
        ↔ (FirstSel.readyErr = .readyOk))
    ∧ (Start ⟨.readyErr, .masterDone, true⟩).slavesJoined = true
    ∧ (Start ⟨.readyErr, .masterDone, true⟩).masterFinishedAtReturn
        = true :=
  have h := Start_orchestration ⟨.readyErr, .masterDone, true⟩
    (by intro _; rfl)
  ⟨h.1, h.2.1, h.2.2 (Or.inr rfl)⟩

/-! ## The Ready barrier (src/zzk/zzk.go, lines 75-110)

`Ready` blocks until a path is available for watching: it checks
existence through `PathExists` (which maps the store's not-found error
to `false`), recursively readies the parent (`path.Dir`), re-checks,
watches the parent's children, and waits on the watch or the shutdown
signal.  The environment `env` gives, for the `k`-th store call, either
the store snapshot it observed or a connection-level error; `wait` gives
the outcome of the `k`-th `select` between the watch event and the
shutdown channel.  Recursion depth and loop turns are bounded by a fuel
parameter (exhaustion yields a distinguished modelling error, never a
success). -/

/-- `path.Dir` for cleaned POSIX paths: everything before the last
slash, with Go's conventions `Dir("/a") = "/"` and `Dir("a") = "."`. -/
def beforeLastSlash (cs : List Char) : Option (List Char) :=
  match cs.reverse.dropWhile (fun c => c ≠ '/') with
  | [] => none
  | _ :: rest => some rest.reverse

/-- Model of Go's `path.Dir` on cleaned paths. -/
def pathDir (p : String) : String :=
  match beforeLastSlash p.data with
  | none => "."
  | some [] => if p.data.head? = some '/' then "/" else "."
  | some cs => String.mk cs

/-- Outcome of a `select` between a watch event and the shutdown
channel. -/
inductive WaitOutcome where
  | fired
  | shutdown
deriving Repr, DecidableEq

/-- `zzk.PathExists` at call index `i`: `conn.Exists` observes either a
connection-level error or a snapshot; the `ErrNoNode` error is mapped to
`false` with no error, every other error is returned as-is. -/
def PathExists (env : Nat → Except Err Store) (i : Nat) (p : String) :
    Except Err Bool :=
  match env i with
  | .error .noNode => .ok false
  | .error e => .error e
  | .ok s => .ok (zkExists s p)

/-- `conn.ChildrenW` at call index `i`. -/
def childrenW (env : Nat → Except Err Store) (i : Nat) (p : String) :
    Except Err (List String) :=
  match env i with
  | .error e => .error e
  | .ok s => zkChildren s p

mutual

/-- `zzk.Ready`: returns the next store-call and wait indices on
success. -/
def readyGo (env : Nat → Except Err Store) (wait : Nat → WaitOutcome) :
    Nat → Nat → Nat → String → Except Err (Nat × Nat)
  | 0, _, _, _ => .error (.other "fuel exhausted")
  | f + 1, i, w, p =>
      match PathExists env i p with
      | .error e => .error e
      | .ok true => .ok (i + 1, w)
      | .ok false => readyLoop env wait f (i + 1) w p

/-- The `for` loop inside `zzk.Ready`: ready the parent, re-check the
path, watch the parent's children, and wait on the watch or shutdown. -/
def readyLoop (env : Nat → Except Err Store) (wait : Nat → WaitOutcome) :
    Nat → Nat → Nat → String → Except Err (Nat × Nat)
  | 0, _, _, _ => .error (.other "fuel exhausted")
  | f + 1, i, w, p =>
      match readyGo env wait f i w (pathDir p) with
      | .error e => .error e
      | .ok (i', w') =>
          match PathExists env i' p with
          | .error e => .error e
          | .ok true => .ok (i' + 1, w')
          | .ok false =>
              match childrenW env (i' + 1) (pathDir p) with
              | .error e => .error e
              | .ok _ =>
                  match wait w' with
                  | .fired => readyLoop env wait f (i' + 2) (w' + 1) p
                  | .shutdown => .error .shutdown

end

theorem PathExists_true (env : Nat → Except Err Store) (i : Nat)
    (p : String) (h : PathExists env i p = .ok true) :
    ∃ s, env i = .ok s ∧ zkExists s p = true := by
  cases henv : env i with
  | ok s =>
      refine ⟨s, rfl, ?_⟩
      simpa [PathExists, henv] using h
  | error e =>
      cases e <;> simp [PathExists, henv] at h

theorem ready_ok_exists (env : Nat → Except Err Store)
    (wait : Nat → WaitOutcome) :
    ∀ f, (∀ i w p r, readyGo env wait f i w p = .ok r →
        ∃ j s, env j = .ok s ∧ zkExists s p = true)
      ∧ (∀ i w p r, readyLoop env wait f i w p = .ok r →
        ∃ j s, env j = .ok s ∧ zkExists s p = true) := by
  intro f
  induction f with
  | zero =>
      constructor <;> intro i w p r h <;>
        simp [readyGo, readyLoop] at h
  | succ f ih =>
      constructor
      · intro i w p r h
        simp only [readyGo] at h
        cases hpe : PathExists env i p with
        | error e => rw [hpe] at h; simp at h
        | ok b =>
            rw [hpe] at h
            cases b with
            | true =>
                obtain ⟨s, hs, he⟩ := PathExists_true env i p hpe
                exact ⟨i, s, hs, he⟩
            | false => exact ih.2 (i + 1) w p r h
      · intro i w p r h
        simp only [readyLoop] at h
        cases hg : readyGo env wait f i w (pathDir p) with
        | error e =>
            simp only [hg] at h
            exact Except.noConfusion h
        | ok iw =>
            obtain ⟨i', w'⟩ := iw
            simp only [hg] at h
            cases hpe : PathExists env i' p with
            | error e =>
                simp only [hpe] at h
                exact Except.noConfusion h
            | ok b =>
                simp only [hpe] at h
                cases b with
                | true =>
                    obtain ⟨s, hs, he⟩ := PathExists_true env i' p hpe
                    exact ⟨i', s, hs, he⟩
                | false =>
                    cases hch : childrenW env (i' + 1) (pathDir p) with
                    | error e =>
                        simp only [hch] at h
                        exact Except.noConfusion h
                    | ok ns =>
                        simp only [hch] at h
                        cases hw : wait w' with
                        | fired =>
                            simp only [hw] at h
                            exact ih.2 (i' + 2) (w' + 1) p r h
                        | shutdown =>
                            simp only [hw] at h
                            exact Except.noConfusion h

/-- The ancestors of `p` obtained by iterating `path.Dir` up to `m`
times (stopping at a fixed point such as `/` or `.`). -/
def ancestorsUpTo : Nat → String → List String
  | 0, _ => []
  | m + 1, p =>
      let d := pathDir p
      if d = p then [] else d :: ancestorsUpTo m d

/-- The ZooKeeper hierarchy invariant: a node can exist only if its
parent exists (the fixed points of `path.Dir`, such as the root, are
exempt). -/
def AncClosed (s : Store) : Prop :=
  ∀ q, zkExists s q = true →
    pathDir q = q ∨ zkExists s (pathDir q) = true

theorem ancClosed_ancestors (s : Store) (h : AncClosed s) :
    ∀ (m : Nat) (p : String), zkExists s p = true →
      ∀ a ∈ ancestorsUpTo m p, zkExists s a = true := by
  intro m
  induction m with
  | zero => simp [ancestorsUpTo]
  | succ m ih =>
      intro p hp a ha
      simp only [ancestorsUpTo] at ha
      by_cases hd : pathDir p = p
      · rw [if_pos hd] at ha
        simp at ha
      · rw [if_neg hd] at ha
        have hpd : zkExists s (pathDir p) = true := by
          rcases h p hp with h1 | h1
          · exact absurd h1 hd
          · exact h1
        rcases List.mem_cons.mp ha with rfl | ha'
        · exact hpd
        · exact ih (pathDir p) hpd a ha'

/-- C4: over any environment whose snapshots satisfy the hierarchy
invariant, `Ready` returns successfully only once it has observed a
snapshot in which the target path — and hence all of its ancestors —
exists; when the shutdown signal resolves the wait, it returns the
distinguished `ErrShutdown` error; a connection error other than
not-found is returned as-is by `PathExists` (and by `Ready`), not-found
is mapped to `false` rather than an error, and a children-watch error is
returned as-is. -/
theorem Ready_barrier (env : Nat → Except Err Store)
    (wait : Nat → WaitOutcome)
    (hcl : ∀ j s, env j = .ok s → AncClosed s) :
    (∀ f i w p r, readyGo env wait f i w p = .ok r →
        ∃ j s, env j = .ok s ∧ zkExists s p = true
          ∧ ∀ m, ∀ a ∈ ancestorsUpTo m p, zkExists s a = true)
    ∧ (∀ f i w p i' w' ns,
        readyGo env wait f i w (pathDir p) = .ok (i', w') →
        PathExists env i' p = .ok false →
        childrenW env (i' + 1) (pathDir p) = .ok ns →
        wait w' = .shutdown →
        readyLoop env wait (f + 1) i w p = .error .shutdown)
    ∧ (∀ f i w p e, PathExists env i p = .error e →
        readyGo env wait (f + 1) i w p = .error e)
    ∧ (∀ i p e, env i = .error e → e ≠ .noNode →
        PathExists env i p = .error e)
    ∧ (∀ i p, env i = .error .noNode → PathExists env i p = .ok false)
    ∧ (∀ f i w p i' w' e,
        readyGo env wait f i w (pathDir p) = .ok (i', w') →
        PathExists env i' p = .ok false →
        childrenW env (i' + 1) (pathDir p) = .error e →
        readyLoop env wait (f + 1) i w p = .error e) := by
  refine ⟨?_, ?_, ?_, ?_, ?_, ?_⟩
  · intro f i w p r h
    obtain ⟨j, s, hs, he⟩ := (ready_ok_exists env wait f).1 i w p r h
    exact ⟨j, s, hs, he, fun m => ancClosed_ancestors s (hcl j s hs) m p he⟩
  · intro f i w p i' w' ns hg hpe hch hw
    simp only [readyLoop, hg, hpe, hch, hw]
  · intro f i w p e hpe
    simp only [readyGo, hpe]
  · intro i p e henv hne
    cases e <;> simp [PathExists, henv] <;> exact absurd rfl hne
  · intro i p henv
    simp [PathExists, henv]
  · intro f i w p i' w' e hg hpe hch
    simp only [readyLoop, hg, hpe, hch]

/-- Environment for the C4 witness: at first only `/` and `/a` exist;
from the third store call on, `/a/b` has been created as well. -/
def wEnvR : Nat → Except Err Store := fun j =>
  if j ≤ 1 then
    .ok [("/", ⟨.raw "r", 0⟩), ("/a", ⟨.raw "a", 0⟩)]
  else
    .ok [("/", ⟨.raw "r", 0⟩), ("/a", ⟨.raw "a", 0⟩),
         ("/a/b", ⟨.raw "b", 0⟩)]

/-- Wait outcomes for the C4 witness (never consulted on this trace). -/
def wWaitR : Nat → WaitOutcome := fun _ => .fired

theorem Store.lookup_mem (s : Store) (p : String) (n : ZNode)
    (h : Store.lookup s p = some n) : (p, n) ∈ s := by
  induction s with
  | nil => simp [Store.lookup] at h
  | cons kv rest ih =>
      obtain ⟨q, m⟩ := kv
      have hstep : Store.lookup ((q, m) :: rest) p
          = if q = p then some m else Store.lookup rest p := rfl
      rw [hstep] at h
      by_cases hq : q = p
      · rw [if_pos hq] at h
        injection h with h2
        subst hq
        subst h2
        exact List.mem_cons_self _ _
      · rw [if_neg hq] at h
        exact List.mem_cons_of_mem _ (ih h)

theorem wEnvR_ancClosed : ∀ j s, wEnvR j = .ok s → AncClosed s := by
  intro j s hjs
  by_cases hj : j ≤ 1
  · have hs : s = [("/", ⟨.raw "r", 0⟩), ("/a", ⟨.raw "a", 0⟩)] := by
      simp only [wEnvR, if_pos hj, Except.ok.injEq] at hjs
      exact hjs.symm
    subst hs
    intro q hq
    obtain ⟨n, hn⟩ : ∃ n,
        Store.lookup [("/", ⟨.raw "r", 0⟩), ("/a", ⟨.raw "a", 0⟩)] q
          = some n := by
      simpa [zkExists, Option.isSome_iff_exists] using hq
    have hmem := Store.lookup_mem _ q n hn
    simp only [List.mem_cons, List.not_mem_nil, or_false,
      Prod.mk.injEq] at hmem
    rcases hmem with ⟨rfl, -⟩ | ⟨rfl, -⟩
    · exact Or.inl (by decide)
    · exact Or.inr (by decide)
  · have hs : s = [("/", ⟨.raw "r", 0⟩), ("/a", ⟨.raw "a", 0⟩),
        ("/a/b", ⟨.raw "b", 0⟩)] := by
      simp only [wEnvR, if_neg hj, Except.ok.injEq] at hjs
      exact hjs.symm
    subst hs
    intro q hq
    obtain ⟨n, hn⟩ : ∃ n,
        Store.lookup [("/", ⟨.raw "r", 0⟩), ("/a", ⟨.raw "a", 0⟩),
          ("/a/b", ⟨.raw "b", 0⟩)] q = some n := by
      simpa [zkExists, Option.isSome_iff_exists] using hq
    have hmem := Store.lookup_mem _ q n hn
    simp only [List.mem_cons, List.not_mem_nil, or_false,
      Prod.mk.injEq] at hmem
    rcases hmem with ⟨rfl, -⟩ | ⟨rfl, -⟩ | ⟨rfl, -⟩
    · exact Or.inl (by decide)
    · exact Or.inr (by decide)
    · exact Or.inr (by decide)

/-- Witness for C4: on the concrete trace where `/a/b` appears after the
first check, `Ready` succeeds, and the theorem yields the snapshot in
which the target and its ancestors all exist. -/
theorem Ready_barrier_witness :
    ∃ j s, wEnvR j = .ok s ∧ zkExists s "/a/b" = true
      ∧ ∀ m, ∀ a ∈ ancestorsUpTo m "/a/b", zkExists s a = true :=
  (Ready_barrier wEnvR wWaitR wEnvR_ancClosed).1 3 0 0 "/a/b" (3, 0)
    (by rfl)

end Serviced
